import Mathlib

/-!
Formal model of the quota/storage accounting and document-ingestion pipeline
of the AI study-assistant backend (Express + Prisma).  Each definition is a
shallow embedding of the corresponding JavaScript code:

* `getMonthlyLimit` — src/utils/limits.js
* `resetMonthlyUsageIfNeeded`, `processUpload` — documents router (upload pipeline)
* `deleteDocumentRoute` — documents router, DELETE /document/:id
* `deleteUserFileRoute` — admin router, DELETE /users/:id/files/:documentId
* `backfillStorage` — storage backfill maintenance script
* `generateStudyMaterials`, `stripCodeFence`, `jsonParseChars` — LLM response handling

JavaScript numbers and BigInt are modelled as `Int`; nullable values as
`Option`; fallible external calls (text extraction, the LLM call, store
writes) as `Except String` oracles threaded through the pipeline.
-/

namespace StudyBackend

/-- A row of the `user` table restricted to the fields the quota/storage code
reads.  `monthlyLimit` is `Option Int`: `none` models a value that is not a
JavaScript number (unset/null), mirroring the `typeof` check in
`getMonthlyLimit`.  `storageUsed` is `Option Int`: `none` models a SQL NULL,
mirroring the defensive null check in the upload route (the migration declares
the column `BIGINT NOT NULL DEFAULT 0`, so live rows always carry `some`).
`lastReset` is a timestamp in milliseconds. -/
structure UserRec where
  id : String
  plan : String
  role : String
  monthlyLimit : Option Int
  documentsUsed : Int
  storageUsed : Option Int
  lastReset : Int
  deriving Repr, DecidableEq

/-- Shallow embedding of `getMonthlyLimit` (src/utils/limits.js): the base
limit is `user.monthlyLimit` when it is a number and `5` otherwise; the floor
is `100` for plan `"premium"` or role `"admin"`, else `0`; the result is
`Math.max` of the two. -/
def getMonthlyLimit (user : UserRec) : Int :=
  let baseLimit : Int :=
    match user.monthlyLimit with
    | some n => n
    | none => 5
  let isPremium : Bool := user.plan == "premium" || user.role == "admin"
  let minLimit : Int := if isPremium then 100 else 0
  max baseLimit minLimit

/-- Characters of the JavaScript whitespace class (`\s`, `trim`), restricted
to the ASCII range: space, tab, line feed, carriage return, vertical tab and
form feed. -/
def jsWhitespace (c : Char) : Bool :=
  c == ' ' || c == '\t' || c == '\n' || c == '\r' || c == '\x0b' || c == '\x0c'

/-- JavaScript `String.prototype.trim` on a list of characters: drop
whitespace from both ends. -/
def jsTrim (s : List Char) : List Char :=
  ((s.dropWhile jsWhitespace).reverse.dropWhile jsWhitespace).reverse

/-- Shallow embedding of `resetMonthlyUsageIfNeeded` (documents router): the
code computes `daysSinceReset = (now - lastReset) / 86400000` with real
division and returns the user unchanged when it is `< 30`; over the integers
this is exactly `now - lastReset < 30 * 86400000`.  Otherwise it writes
`documentsUsed := 0` and `lastReset := now`. -/
def resetMonthlyUsageIfNeeded (now : Int) (user : UserRec) : UserRec :=
  if now - user.lastReset < 30 * 86400000 then user
  else { user with documentsUsed := 0, lastReset := now }

/-- Strict JSON value, the result of parsing the LLM response.  Numeric
literals keep their validated lexeme. -/
inductive Json where
  | jnull : Json
  | jbool : Bool → Json
  | jnum : String → Json
  | jstr : String → Json
  | jarr : List Json → Json
  | jobj : List (String × Json) → Json

/-- Study materials as consumed by `prisma.document.create`: the three fields
the upload route reads off the generator's parsed JSON response. -/
structure StudyMaterials where
  summary : String
  flashcards : Json
  examQuestions : Json

/-- A row of the `Document` table restricted to the fields the routes read. -/
structure DocumentRec where
  id : String
  userId : String
  filename : String
  originalName : String
  fileType : String
  fileSize : Int
  language : String
  summary : String
  flashcards : Json
  examQuestions : Json

/-- The multer file object for an accepted upload. -/
structure FileInfo where
  filename : String
  originalName : String
  mimetype : String
  size : Int

/-- Outcomes of the external calls and store writes made by the upload route,
threaded as oracles: `extractResult` for `extractTextFromFile` (which throws
on decoder errors), `genResult` for `generateStudyMaterials`, `createdDocId`
for `prisma.document.create` (the id of the new row, or the store error), and
`accountingResult` for the counter-update `prisma.user.update`. -/
structure UploadEnv where
  extractResult : Except String (List Char)
  genResult : Except String StudyMaterials
  createdDocId : Except String String
  accountingResult : Except String Unit

/-- Observable outcome of one upload request: the HTTP status, the uploading
user's row afterwards (`none` when the lookup found no row), the document
table afterwards, and whether the temporary file was deleted (unlink
attempted; its own failure is swallowed by the code). -/
structure UploadResult where
  status : Nat
  user : Option UserRec
  docs : List DocumentRec
  tempDeleted : Bool

/-- Defensive initialisation in the upload route: a NULL `storageUsed` is
written back as 0 before any accounting math. -/
def initStorage (u : UserRec) : UserRec :=
  if u.storageUsed = none then { u with storageUsed := some 0 } else u

/-- Upload pipeline from the point where the user row has been loaded and the
monthly reset applied (`dbUser0`), following the route body line by line:
defensive null-init of `storageUsed`, quota check against `getMonthlyLimit`,
text extraction with the `!text || text.trim().length < 50` guard, generation,
document creation, and the accounting update incrementing `documentsUsed` by 1
and `storageUsed` by the file's byte size. -/
def uploadAfterReset (language : String) (file : FileInfo) (dbUser0 : UserRec)
    (docs : List DocumentRec) (env : UploadEnv) : UploadResult :=
  let selectedLanguage := if language == "arabic" then "arabic" else "english"
  let dbUser := initStorage dbUser0
  let monthlyLimit := getMonthlyLimit dbUser
  if monthlyLimit ≤ dbUser.documentsUsed then
    { status := 403, user := some dbUser, docs := docs, tempDeleted := true }
  else
    match env.extractResult with
    | .error _ => { status := 500, user := some dbUser, docs := docs, tempDeleted := true }
    | .ok text =>
      if text = [] ∨ (jsTrim text).length < 50 then
        { status := 400, user := some dbUser, docs := docs, tempDeleted := true }
      else
        match env.genResult with
        | .error _ => { status := 500, user := some dbUser, docs := docs, tempDeleted := true }
        | .ok studyMaterials =>
          match env.createdDocId with
          | .error _ => { status := 500, user := some dbUser, docs := docs, tempDeleted := true }
          | .ok docId =>
            let document : DocumentRec :=
              { id := docId, userId := dbUser.id, filename := file.filename,
                originalName := file.originalName, fileType := file.mimetype,
                fileSize := file.size, language := selectedLanguage,
                summary := studyMaterials.summary,
                flashcards := studyMaterials.flashcards,
                examQuestions := studyMaterials.examQuestions }
            let docs1 := docs ++ [document]
            match env.accountingResult with
            | .error _ => { status := 500, user := some dbUser, docs := docs1, tempDeleted := true }
            | .ok _ =>
              let updatedUser := { dbUser with
                documentsUsed := dbUser.documentsUsed + 1,
                storageUsed := some (dbUser.storageUsed.getD 0 + file.size) }
              { status := 200, user := some updatedUser, docs := docs1, tempDeleted := true }

/-- Shallow embedding of the POST /upload handler (documents router).
`file` is `none` when multer received no file; `dbUserLookup` is the result of
`prisma.user.findUnique` for the session user.  The monthly reset runs before
everything else that touches quota. -/
def processUpload (now : Int) (language : String) (file : Option FileInfo)
    (dbUserLookup : Option UserRec) (docs : List DocumentRec) (env : UploadEnv) :
    UploadResult :=
  match file with
  | none => { status := 400, user := dbUserLookup, docs := docs, tempDeleted := false }
  | some file =>
    match dbUserLookup with
    | none => { status := 404, user := none, docs := docs, tempDeleted := true }
    | some found =>
      uploadAfterReset language file (resetMonthlyUsageIfNeeded now found) docs env

/-- The authenticated session user fields read by the document routes. -/
structure SessionUser where
  id : String
  role : String

/-- Observable outcome of a document-deletion request: HTTP status, the
owning user's row afterwards, and the document table afterwards. -/
structure DeleteResult where
  status : Nat
  owner : UserRec
  docs : List DocumentRec

/-- Shallow embedding of DELETE /document/:id (documents router): find the
document; 404 when absent; 403 for a non-admin caller that does not own it;
otherwise delete the row, read the owner's `storageUsed`
(`owner?.storageUsed ?? 0`), subtract the document's recorded size and write
back the clamp `if next > 0 then next else 0`.  The `owner` argument is the
user row for `document.userId` (the route re-reads it with `findUnique`); in
the branch where that row is missing the update throws (500). -/
def deleteDocumentRoute (sessionUser : SessionUser) (docId : String)
    (owner : UserRec) (docs : List DocumentRec) : DeleteResult :=
  match docs.find? (fun d => d.id == docId) with
  | none => { status := 404, owner := owner, docs := docs }
  | some document =>
    let isAdmin := sessionUser.role == "admin"
    if !isAdmin && document.userId != sessionUser.id then
      { status := 403, owner := owner, docs := docs }
    else
      let docs1 := docs.filter (fun d => !(d.id == docId))
      if document.userId = owner.id then
        let currentStorage := owner.storageUsed.getD 0
        let nextStorage := currentStorage - document.fileSize
        { status := 200,
          owner := { owner with
            storageUsed := some (if 0 < nextStorage then nextStorage else 0) },
          docs := docs1 }
      else
        { status := 500, owner := owner, docs := docs1 }

/-- Shallow embedding of DELETE /users/:id/files/:documentId (admin router):
find the document; 404 when absent or when its `userId` differs from the path
parameter; otherwise delete the row and apply the same clamped decrement of
the owner's `storageUsed`. -/
def deleteUserFileRoute (paramsId documentId : String) (owner : UserRec)
    (docs : List DocumentRec) : DeleteResult :=
  match docs.find? (fun d => d.id == documentId) with
  | none => { status := 404, owner := owner, docs := docs }
  | some document =>
    if document.userId != paramsId then
      { status := 404, owner := owner, docs := docs }
    else
      let docs1 := docs.filter (fun d => !(d.id == documentId))
      if paramsId = owner.id then
        let currentStorage := owner.storageUsed.getD 0
        let nextStorage := currentStorage - document.fileSize
        { status := 200,
          owner := { owner with
            storageUsed := some (if 0 < nextStorage then nextStorage else 0) },
          docs := docs1 }
      else
        { status := 500, owner := owner, docs := docs1 }

/-- Total byte size of a user's current documents: the `groupBy`
`_sum.fileSize` aggregate of the backfill script (with `|| 0` for an empty
group). -/
def userDocsTotal (docs : List DocumentRec) (uid : String) : Int :=
  ((docs.filter (fun d => d.userId == uid)).map DocumentRec.fileSize).sum

/-- Shallow embedding of the storage backfill script: first
`updateMany { storageUsed: 0 }` over all users, then one update per
`userId` group of the `Document` table setting `storageUsed` to the group's
`_sum.fileSize`.  Groups whose `userId` has no user row touch no user row. -/
def backfillStorage (users : List UserRec) (docs : List DocumentRec) :
    List UserRec :=
  let zeroed := users.map (fun u => { u with storageUsed := some 0 })
  zeroed.map (fun u =>
    if docs.any (fun d => d.userId == u.id) then
      { u with storageUsed := some (userDocsTotal docs u.id) }
    else u)

/-- The invariant on a user row: a stored (non-NULL) `storageUsed` is
non-negative. -/
def storageNonneg (u : UserRec) : Prop :=
  ∀ s : Int, u.storageUsed = some s → 0 ≤ s

/-! ### Strict JSON parser, modelling the JavaScript `JSON.parse` builtin -/

/-- JSON whitespace (strict grammar): space, tab, line feed, carriage
return. -/
def skipWs (s : List Char) : List Char :=
  s.dropWhile (fun c => c == ' ' || c == '\t' || c == '\n' || c == '\r')

/-- Value of a hexadecimal digit: its position in the digit alphabet, found
case-insensitively. -/
def hexDigitVal (c : Char) : Option Nat :=
  "0123456789abcdef".data.findIdx? (fun d => d == c.toLower)

/-- Decode one single-character escape after a backslash, by the JSON escape
table (quote, backslash, slash, backspace, form feed, line feed, carriage
return, tab); `\u` escapes are handled separately. -/
def escapeChar : Char → Option Char
  | '"' => some '"'
  | '\\' => some '\\'
  | '/' => some '/'
  | 'b' => some (Char.ofNat 8)
  | 'f' => some (Char.ofNat 12)
  | 'n' => some (Char.ofNat 10)
  | 'r' => some (Char.ofNat 13)
  | 't' => some (Char.ofNat 9)
  | _ => none

/-- Parse the body of a JSON string after the opening quote, returning the
decoded content and the input after the closing quote. -/
def parseStringChars : List Char → Except String (List Char × List Char)
  | [] => .error "unterminated string"
  | c :: rest =>
    if c == '"' then .ok ([], rest)
    else if c == '\\' then
      match rest with
      | [] => .error "unterminated escape"
      | e :: rest2 =>
        if e == 'u' then
          match rest2 with
          | h1 :: h2 :: h3 :: h4 :: rest3 =>
            match hexDigitVal h1, hexDigitVal h2, hexDigitVal h3, hexDigitVal h4 with
            | some a, some b, some c2, some d =>
              match parseStringChars rest3 with
              | .ok (tail, rem) =>
                .ok (Char.ofNat (((a * 16 + b) * 16 + c2) * 16 + d) :: tail, rem)
              | .error msg => .error msg
            | _, _, _, _ => .error "invalid unicode escape"
          | _ => .error "invalid unicode escape"
        else
          match escapeChar e with
          | some decoded =>
            match parseStringChars rest2 with
            | .ok (tail, rem) => .ok (decoded :: tail, rem)
            | .error msg => .error msg
          | none => .error "invalid escape"
    else if c.toNat < 32 then .error "control character in string"
    else
      match parseStringChars rest with
      | .ok (tail, rem) => .ok (c :: tail, rem)
      | .error msg => .error msg

/-- Parse an optional fraction part `.digits`. -/
def parseFracPart (s : List Char) : Except String (List Char × List Char) :=
  match s with
  | '.' :: t =>
    let digits := t.takeWhile Char.isDigit
    let r := t.dropWhile Char.isDigit
    if digits = [] then .error "invalid number" else .ok ('.' :: digits, r)
  | _ => .ok ([], s)

/-- Parse an optional exponent part `(e|E)(+|-)?digits`. -/
def parseExpPart (s : List Char) : Except String (List Char × List Char) :=
  match s with
  | c :: t =>
    if c == 'e' || c == 'E' then
      let signAndRest : List Char × List Char :=
        match t with
        | '+' :: r => (['+'], r)
        | '-' :: r => (['-'], r)
        | _ => ([], t)
      let digits := signAndRest.2.takeWhile Char.isDigit
      let r := signAndRest.2.dropWhile Char.isDigit
      if digits = [] then .error "invalid number"
      else .ok (c :: (signAndRest.1 ++ digits), r)
    else .ok ([], s)
  | [] => .ok ([], s)

/-- Parse a JSON number, returning its lexeme (strict grammar: optional
minus, no leading zeros, optional fraction and exponent). -/
def parseNumberLexeme (s : List Char) : Except String (List Char × List Char) :=
  let negAndRest : List Char × List Char :=
    match s with
    | '-' :: t => (['-'], t)
    | _ => ([], s)
  let intPart := negAndRest.2.takeWhile Char.isDigit
  let s2 := negAndRest.2.dropWhile Char.isDigit
  match intPart with
  | [] => .error "invalid number"
  | c :: restDigits =>
    if c == '0' ∧ restDigits ≠ [] then .error "invalid number"
    else
      match parseFracPart s2 with
      | .error e => .error e
      | .ok (fracPart, s3) =>
        match parseExpPart s3 with
        | .error e => .error e
        | .ok (expPart, s4) =>
          .ok (negAndRest.1 ++ intPart ++ fracPart ++ expPart, s4)

mutual

/-- Parse one JSON value; the fuel bounds the recursion and exceeds the
nesting depth of any input when instantiated with the input length. -/
def parseValue : Nat → List Char → Except String (Json × List Char)
  | 0, _ => .error "input too deeply nested"
  | Nat.succ fuel, s =>
    match skipWs s with
    | [] => .error "unexpected end of input"
    | c :: rest =>
      if c == '\x7b' then
        match skipWs rest with
        | '\x7d' :: rem => .ok (.jobj [], rem)
        | s2 =>
          match parseMembers fuel s2 with
          | .error e => .error e
          | .ok (members, rem) => .ok (.jobj members, rem)
      else if c == '[' then
        match skipWs rest with
        | ']' :: rem => .ok (.jarr [], rem)
        | s2 =>
          match parseElements fuel s2 with
          | .error e => .error e
          | .ok (elems, rem) => .ok (.jarr elems, rem)
      else if c == '"' then
        match parseStringChars rest with
        | .ok (content, rem) => .ok (.jstr (String.mk content), rem)
        | .error e => .error e
      else if c == 't' then
        match rest with
        | 'r' :: 'u' :: 'e' :: rem => .ok (.jbool true, rem)
        | _ => .error "invalid literal"
      else if c == 'f' then
        match rest with
        | 'a' :: 'l' :: 's' :: 'e' :: rem => .ok (.jbool false, rem)
        | _ => .error "invalid literal"
      else if c == 'n' then
        match rest with
        | 'u' :: 'l' :: 'l' :: rem => .ok (.jnull, rem)
        | _ => .error "invalid literal"
      else if c == '-' || c.isDigit then
        match parseNumberLexeme (c :: rest) with
        | .ok (lexeme, rem) => .ok (.jnum (String.mk lexeme), rem)
        | .error e => .error e
      else .error "unexpected character"

/-- Parse the members of a JSON object after its opening brace (non-empty
case), consuming the closing brace. -/
def parseMembers : Nat → List Char → Except String (List (String × Json) × List Char)
  | 0, _ => .error "input too deeply nested"
  | Nat.succ fuel, s =>
    match s with
    | '"' :: rest =>
      match parseStringChars rest with
      | .error e => .error e
      | .ok (key, rem1) =>
        match skipWs rem1 with
        | ':' :: rem2 =>
          match parseValue fuel rem2 with
          | .error e => .error e
          | .ok (v, rem3) =>
            match skipWs rem3 with
            | ',' :: rem4 =>
              match parseMembers fuel (skipWs rem4) with
              | .error e => .error e
              | .ok (tail, rem5) => .ok ((String.mk key, v) :: tail, rem5)
            | '\x7d' :: rem4 => .ok ([(String.mk key, v)], rem4)
            | _ => .error "expected comma or closing brace"
        | _ => .error "expected colon"
    | _ => .error "expected string key"

/-- Parse the elements of a JSON array after its opening bracket (non-empty
case), consuming the closing bracket. -/
def parseElements : Nat → List Char → Except String (List Json × List Char)
  | 0, _ => .error "input too deeply nested"
  | Nat.succ fuel, s =>
    match parseValue fuel s with
    | .error e => .error e
    | .ok (v, rem1) =>
      match skipWs rem1 with
      | ',' :: rem2 =>
        match parseElements fuel rem2 with
        | .error e => .error e
        | .ok (tail, rem3) => .ok (v :: tail, rem3)
      | ']' :: rem2 => .ok ([v], rem2)
      | _ => .error "expected comma or closing bracket"

end

/-- Strict JSON parser over characters, modelling JavaScript `JSON.parse`:
one value, with only whitespace allowed after it. -/
def jsonParseChars (s : List Char) : Except String Json :=
  match parseValue (s.length + 1) s with
  | .error e => .error e
  | .ok (v, rest) =>
    match skipWs rest with
    | [] => .ok v
    | _ => .error "unexpected trailing characters"

/-- The code-fence cleanup of `generateStudyMaterials`, the JavaScript
`replace` with pattern `^`+three backticks+`json\s*` or `\s*`+three
backticks+`$` (global): the leading alternative removes the exact marker
"```json" plus following whitespace at the very start; the trailing
alternative removes whitespace plus "```" at the very end. -/
def stripCodeFence (s : List Char) : List Char :=
  let s1 := if s.take 7 = "```json".data
    then (s.drop 7).dropWhile jsWhitespace
    else s
  if s1.reverse.take 3 = "```".data
  then ((s1.reverse.drop 3).dropWhile jsWhitespace).reverse
  else s1

/-- Shallow embedding of `generateStudyMaterials`: the completion call either
throws (the error is propagated unchanged by the catch-and-rethrow) or yields
the raw message content; the code trims it, strips the code fence with the
regex above, and hands the remainder to strict `JSON.parse`, whose failure
also propagates.  There is no retry and no partial result. -/
def generateStudyMaterials (completionResult : Except String String) :
    Except String Json :=
  match completionResult with
  | .error err => .error err
  | .ok content =>
    let responseText := jsTrim content.data
    let cleanedResponse := stripCodeFence responseText
    jsonParseChars cleanedResponse

/-- Whether a generation result is a success. -/
def genResultOk : Except String Json → Bool
  | .ok _ => true
  | .error _ => false

/-! ### Concrete records used by counterexamples and witnesses -/

/-- A non-premium, non-admin user whose configured monthly limit is 150. -/
def highLimitFreeUser : UserRec :=
  { id := "u-free-150", plan := "free", role := "user", monthlyLimit := some 150,
    documentsUsed := 0, storageUsed := some 0, lastReset := 0 }

/-- A non-premium, non-admin user with a negative configured monthly limit. -/
def negativeLimitUser : UserRec :=
  { id := "u-neg", plan := "free", role := "user", monthlyLimit := some (-3),
    documentsUsed := 0, storageUsed := some 0, lastReset := 0 }

/-- A premium user with a small configured monthly limit. -/
def premiumSmallUser : UserRec :=
  { id := "u-prem", plan := "premium", role := "user", monthlyLimit := some 5,
    documentsUsed := 0, storageUsed := some 0, lastReset := 0 }

/-- A free user with a configured monthly limit of 7. -/
def plainUser7 : UserRec :=
  { id := "u-plain", plan := "free", role := "user", monthlyLimit := some 7,
    documentsUsed := 0, storageUsed := some 0, lastReset := 0 }

/-- A free user whose `monthlyLimit` field is not a number. -/
def freeNoLimitUser : UserRec :=
  { id := "u-free-none", plan := "free", role := "user", monthlyLimit := none,
    documentsUsed := 0, storageUsed := some 0, lastReset := 0 }

/-- An admin user whose `monthlyLimit` field is not a number. -/
def adminNoLimitUser : UserRec :=
  { id := "u-admin-none", plan := "free", role := "admin", monthlyLimit := none,
    documentsUsed := 0, storageUsed := some 0, lastReset := 0 }

/-- A user whose last reset was at timestamp 0 with some usage recorded. -/
def staleUser : UserRec :=
  { id := "u-stale", plan := "free", role := "user", monthlyLimit := some 5,
    documentsUsed := 4, storageUsed := some 10, lastReset := 0 }

/-- Scenario A user: `documentsUsed = 5`, `monthlyLimit = 5`, free plan. -/
def scenarioAUser : UserRec :=
  { id := "u-a", plan := "free", role := "user", monthlyLimit := some 5,
    documentsUsed := 5, storageUsed := some 100, lastReset := 0 }

/-- A free user with quota headroom and 2048 stored bytes. -/
def headroomUser : UserRec :=
  { id := "u-up", plan := "free", role := "user", monthlyLimit := some 5,
    documentsUsed := 1, storageUsed := some 2048, lastReset := 0 }

/-- An accepted sample PDF upload of 1234 bytes. -/
def sampleFile : FileInfo :=
  { filename := "171-notes.pdf", originalName := "notes.pdf",
    mimetype := "application/pdf", size := 1234 }

/-- An environment in which generation and persistence would fail; only
reachable stages matter for the rejection paths. -/
def trivialEnv : UploadEnv :=
  { extractResult := .ok [], genResult := .error "generation unavailable",
    createdDocId := .error "store unavailable", accountingResult := .ok () }

/-- Fifty characters of extracted text. -/
def text50 : List Char :=
  "abcdefghijklmnopqrstuvwxyz0123456789ABCDEFGHIJKLMN".data

/-- Thirty characters of extracted text. -/
def text30 : List Char :=
  "abcdefghijklmnopqrstuvwxyz1234".data

/-- An environment whose extraction yields only 30 characters. -/
def shortTextEnv : UploadEnv :=
  { extractResult := .ok text30, genResult := .error "x",
    createdDocId := .error "x", accountingResult := .ok () }

/-- Concrete study materials. -/
def sampleMaterials : StudyMaterials :=
  { summary := "a summary", flashcards := .jarr [], examQuestions := .jarr [] }

/-- An environment in which every stage succeeds and the created document
gets id "d-new". -/
def happyEnv : UploadEnv :=
  { extractResult := .ok text50, genResult := .ok sampleMaterials,
    createdDocId := .ok "d-new", accountingResult := .ok () }

/-- An environment in which the document-creation store write fails. -/
def persistFailEnv : UploadEnv :=
  { extractResult := .ok text50, genResult := .ok sampleMaterials,
    createdDocId := .error "write failed", accountingResult := .ok () }

/-- A user owning 500000 stored bytes. -/
def owner500k : UserRec :=
  { id := "u-500k", plan := "free", role := "user", monthlyLimit := some 5,
    documentsUsed := 1, storageUsed := some 500000, lastReset := 0 }

/-- A 1000000-byte document owned by `owner500k`. -/
def bigDoc : DocumentRec :=
  { id := "d-big", userId := "u-500k", filename := "f-big", originalName := "big.pdf",
    fileType := "application/pdf", fileSize := 1000000, language := "english",
    summary := "s", flashcards := .jarr [], examQuestions := .jarr [] }

/-- A valid JSON payload for study materials. -/
def innerJsonText : String :=
  "\x7b\"summary\": \"ok\", \"flashcards\": [], \"examQuestions\": []\x7d"

/-- The payload wrapped in a code fence labelled `json`. -/
def fencedJsonText : String := "```json\n" ++ innerJsonText ++ "\n```"

/-- The payload wrapped in a plain (unlabelled) code fence. -/
def plainFencedText : String := "```\n" ++ innerJsonText ++ "\n```"

/-- The parsed form of `innerJsonText`. -/
def innerJsonValue : Json :=
  .jobj [("summary", .jstr "ok"), ("flashcards", .jarr []),
         ("examQuestions", .jarr [])]

/-! ### Helper lemmas -/

/-- Dropping a prefix cannot lengthen a list. -/
theorem length_dropWhile_le' (p : Char → Bool) (s : List Char) :
    (s.dropWhile p).length ≤ s.length := by
  induction s with
  | nil => simp
  | cons a l ih =>
    cases h : p a <;> simp [List.dropWhile, h]
    exact ih.trans (Nat.le_succ _)

/-- Trimming cannot lengthen a string. -/
theorem jsTrim_length_le (s : List Char) : (jsTrim s).length ≤ s.length := by
  unfold jsTrim
  rw [List.length_reverse]
  refine le_trans (length_dropWhile_le' _ _) ?_
  rw [List.length_reverse]
  exact length_dropWhile_le' _ _

/-- The monthly reset never touches `storageUsed`. -/
theorem reset_storageUsed (now : Int) (u : UserRec) :
    (resetMonthlyUsageIfNeeded now u).storageUsed = u.storageUsed := by
  unfold resetMonthlyUsageIfNeeded
  split <;> rfl

/-- The monthly reset never touches the user id. -/
theorem reset_id (now : Int) (u : UserRec) :
    (resetMonthlyUsageIfNeeded now u).id = u.id := by
  unfold resetMonthlyUsageIfNeeded
  split <;> rfl

/-- On a row with a stored `storageUsed`, the defensive init is the
identity. -/
theorem initStorage_eq_self {u : UserRec} {s : Int} (hs : u.storageUsed = some s) :
    initStorage u = u := by
  unfold initStorage
  rw [if_neg]
  simp [hs]

/-- Finding in an appended list skips a prefix with no match. -/
theorem find?_append_of_all_neg {α : Type} (p : α → Bool) (l1 l2 : List α)
    (h : ∀ a ∈ l1, p a = false) : (l1 ++ l2).find? p = l2.find? p := by
  induction l1 with
  | nil => rfl
  | cons a l ih =>
    rw [List.cons_append, List.find?_cons_of_neg _ (by simp [h a (List.mem_cons_self a l)])]
    exact ih fun d hd => h d (List.mem_cons_of_mem a hd)

/-- Filtering keeps a list whose elements all satisfy the predicate. -/
theorem filter_eq_self_of_all_pos {α : Type} (p : α → Bool) (l : List α)
    (h : ∀ a ∈ l, p a = true) : l.filter p = l := by
  induction l with
  | nil => rfl
  | cons a t ih =>
    rw [List.filter_cons_of_pos (h a (List.mem_cons_self a t))]
    rw [ih fun d hd => h d (List.mem_cons_of_mem a hd)]

/-- Computation of the owner-deletion route when the document is found and the
session user owns it: 200, the document removed, and the owner's
`storageUsed` decremented by the document's size, clamped at 0. -/
theorem deleteDocumentRoute_owned (sess : SessionUser) (dId : String)
    (owner : UserRec) (docsD : List DocumentRec) (d : DocumentRec)
    (hfind : docsD.find? (fun x => x.id == dId) = some d)
    (hdo : d.userId = owner.id) (hsid : sess.id = d.userId) :
    deleteDocumentRoute sess dId owner docsD
      = { status := 200,
          owner := { owner with storageUsed := some (if 0 < owner.storageUsed.getD 0 - d.fileSize then owner.storageUsed.getD 0 - d.fileSize else 0) },
          docs := docsD.filter (fun x => !(x.id == dId)) } := by
  unfold deleteDocumentRoute
  rw [hfind]
  simp only []
  have hbne : (d.userId != sess.id) = false := by
    rw [hsid]
    simp
  rw [hbne, Bool.and_false]
  simp only [Bool.false_eq_true, if_false]
  rw [if_pos hdo]

/-- Computation of the upload pipeline when every stage succeeds: 200, the
new document appended, `documentsUsed` incremented and `storageUsed` increased
by the file's byte size. -/
theorem uploadAfterReset_success (language : String) (file : FileInfo)
    (dbUser : UserRec) (docs : List DocumentRec) (env : UploadEnv) (sv : Int)
    (text : List Char) (sm : StudyMaterials) (docId : String)
    (hsv : dbUser.storageUsed = some sv)
    (hq : dbUser.documentsUsed < getMonthlyLimit dbUser)
    (hext : env.extractResult = .ok text)
    (hlen : 50 ≤ (jsTrim text).length)
    (hgen : env.genResult = .ok sm)
    (hcreate : env.createdDocId = .ok docId)
    (hacc : env.accountingResult = .ok ()) :
    uploadAfterReset language file dbUser docs env
      = { status := 200,
          user := some { dbUser with
            documentsUsed := dbUser.documentsUsed + 1,
            storageUsed := some (sv + file.size) },
          docs := docs ++ [{ id := docId, userId := dbUser.id, filename := file.filename, originalName := file.originalName, fileType := file.mimetype, fileSize := file.size, language := if language == "arabic" then "arabic" else "english", summary := sm.summary, flashcards := sm.flashcards, examQuestions := sm.examQuestions }],
          tempDeleted := true } := by
  have hinit : initStorage dbUser = dbUser := initStorage_eq_self hsv
  have hguard : ¬(text = [] ∨ (jsTrim text).length < 50) := by
    rintro (rfl | hlt)
    · simp [jsTrim] at hlen
    · omega
  unfold uploadAfterReset
  rw [hinit, if_neg (not_le.mpr hq), hext]
  simp only []
  rw [if_neg hguard, hgen]
  simp only []
  rw [hcreate]
  simp only []
  rw [hacc]
  simp only []
  rw [hsv]
  rfl

/-- Deleting a freshly appended document owned by the session user removes
exactly that document and applies the clamped decrement to the owner's
storage counter. -/
theorem delete_new_doc (u1 : UserRec) (newDoc : DocumentRec)
    (docs : List DocumentRec) (sessId role docId : String)
    (hfresh : ∀ d ∈ docs, d.id ≠ docId)
    (hndid : newDoc.id = docId)
    (hndowner : newDoc.userId = u1.id)
    (hsess : sessId = newDoc.userId) :
    deleteDocumentRoute { id := sessId, role := role } docId u1 (docs ++ [newDoc])
      = { status := 200,
          owner := { u1 with storageUsed := some (if 0 < u1.storageUsed.getD 0 - newDoc.fileSize then u1.storageUsed.getD 0 - newDoc.fileSize else 0) },
          docs := docs } := by
  have hallneg : ∀ x ∈ docs, ((fun x => x.id == docId) x) = false := fun x hx => by
    simpa using hfresh x hx
  have hfind : (docs ++ [newDoc]).find? (fun x => x.id == docId) = some newDoc := by
    rw [find?_append_of_all_neg _ _ _ hallneg]
    rw [List.find?_cons_of_pos _ (by simp [hndid])]
  have hdel := deleteDocumentRoute_owned { id := sessId, role := role } docId u1
    (docs ++ [newDoc]) newDoc hfind hndowner hsess
  rw [hdel]
  have hfilter : (docs ++ [newDoc]).filter (fun x => !(x.id == docId)) = docs := by
    rw [List.filter_append,
      filter_eq_self_of_all_pos _ _ (fun x hx => by simp [hfresh x hx])]
    simp [hndid]
  rw [hfilter]

/-- The upload pipeline leaves the user row at the post-init state on every
rejection/failure path, and otherwise applies exactly the accounting
increment. -/
theorem uploadAfterReset_user_cases (language : String) (file : FileInfo)
    (dbUser0 : UserRec) (docs : List DocumentRec) (env : UploadEnv) :
    (uploadAfterReset language file dbUser0 docs env).user
        = some (initStorage dbUser0)
      ∨ (uploadAfterReset language file dbUser0 docs env).user
        = some { initStorage dbUser0 with
            documentsUsed := (initStorage dbUser0).documentsUsed + 1,
            storageUsed := some ((initStorage dbUser0).storageUsed.getD 0 + file.size) } := by
  unfold uploadAfterReset
  by_cases h1 : getMonthlyLimit (initStorage dbUser0) ≤ (initStorage dbUser0).documentsUsed
  · rw [if_pos h1]
    left
    rfl
  · rw [if_neg h1]
    cases hE : env.extractResult with
    | error e =>
      left
      rfl
    | ok text =>
      simp only []
      by_cases h2 : text = [] ∨ (jsTrim text).length < 50
      · rw [if_pos h2]
        left
        rfl
      · rw [if_neg h2]
        cases hG : env.genResult with
        | error e =>
          left
          rfl
        | ok sm =>
          simp only []
          cases hC : env.createdDocId with
          | error e =>
            left
            rfl
          | ok did =>
            simp only []
            cases hA : env.accountingResult with
            | error e =>
              left
              rfl
            | ok uu =>
              right
              rfl

/-- A sum of sizes over documents with non-negative sizes is non-negative. -/
theorem userDocsTotal_nonneg (docs : List DocumentRec) (uid : String)
    (h : ∀ d ∈ docs, 0 ≤ d.fileSize) : 0 ≤ userDocsTotal docs uid := by
  unfold userDocsTotal
  apply List.sum_nonneg
  intro x hx
  rcases List.mem_map.mp hx with ⟨d2, hd2, rfl⟩
  exact h d2 (List.mem_of_mem_filter hd2)

/-- A user with no documents contributes an empty group, so their total is
zero. -/
theorem userDocsTotal_eq_zero (docs : List DocumentRec) (uid : String)
    (h : ∀ d ∈ docs, (d.userId == uid) = false) : userDocsTotal docs uid = 0 := by
  unfold userDocsTotal
  have hnil : docs.filter (fun d => d.userId == uid) = [] := by
    induction docs with
    | nil => rfl
    | cons a t ih =>
      rw [List.filter_cons_of_neg (by simp [h a (List.mem_cons_self a t)])]
      exact ih fun d hd => h d (List.mem_cons_of_mem a hd)
  rw [hnil]
  rfl

/-- The backfill is the pointwise recomputation of every user's storage from
the document table. -/
theorem backfillStorage_eq (users : List UserRec) (docs : List DocumentRec) :
    backfillStorage users docs
      = users.map (fun u => { u with storageUsed := some (userDocsTotal docs u.id) }) := by
  unfold backfillStorage
  rw [List.map_map]
  congr 1
  funext u
  by_cases h : docs.any (fun d => d.userId == u.id)
  · simp only [Function.comp_apply]
    rw [if_pos (by simpa using h)]
  · simp only [Function.comp_apply]
    rw [if_neg (by simpa using h)]
    have h0 : userDocsTotal docs u.id = 0 := by
      apply userDocsTotal_eq_zero
      intro d hd
      by_contra hc
      exact h (List.any_eq_true.mpr ⟨d, hd, by simpa using hc⟩)
    rw [h0]

/-! ### Claim theorems -/

/-- C1 counterexample: the claimed equivalence `effectiveLimit(user) >= 100
iff plan == "premium" or role == "admin"` fails for a free user whose
configured `monthlyLimit` is 150, and the claimed `effectiveLimit(user) ==
user.monthlyLimit` for non-premium users fails for a negative configured
limit (the code clamps it at 0 via `Math.max`). -/
theorem c1_effectiveLimit_counterexample :
    ¬((100 ≤ getMonthlyLimit highLimitFreeUser) ↔
        (highLimitFreeUser.plan = "premium" ∨ highLimitFreeUser.role = "admin"))
      ∧ ¬(getMonthlyLimit negativeLimitUser = (-3)) := by
  decide

/-- C1 (amended): for a user whose `monthlyLimit` is a number `m`,
`effectiveLimit(user) = max(m, premiumFloor)` with `premiumFloor = 100` for
plan `"premium"` or role `"admin"` and `0` otherwise; a premium/admin user's
limit is at least 100; `effectiveLimit(user) >= 100` iff the user is
premium/admin or `m >= 100`; and a non-premium, non-admin user with `m >= 0`
has `effectiveLimit(user) = m`. -/
theorem c1_effectiveLimit_amended (u : UserRec) (m : Int)
    (hm : u.monthlyLimit = some m) :
    getMonthlyLimit u
        = max m (if u.plan = "premium" ∨ u.role = "admin" then 100 else 0)
      ∧ ((u.plan = "premium" ∨ u.role = "admin") → 100 ≤ getMonthlyLimit u)
      ∧ (100 ≤ getMonthlyLimit u ↔
          (u.plan = "premium" ∨ u.role = "admin" ∨ 100 ≤ m))
      ∧ (¬(u.plan = "premium" ∨ u.role = "admin") → 0 ≤ m →
          getMonthlyLimit u = m) := by
  have hval : getMonthlyLimit u
      = max m (if u.plan = "premium" ∨ u.role = "admin" then 100 else 0) := by
    by_cases hp : u.plan = "premium" <;> by_cases hr : u.role = "admin" <;>
      simp [getMonthlyLimit, hm, hp, hr]
  refine ⟨hval, ?_, ?_, ?_⟩
  · intro h
    rw [hval, if_pos h]
    exact le_max_right _ _
  · rw [hval]
    by_cases h : u.plan = "premium" ∨ u.role = "admin"
    · rw [if_pos h]
      constructor
      · intro _
        rcases h with h | h
        · exact Or.inl h
        · exact Or.inr (Or.inl h)
      · intro _
        exact le_max_right _ _
    · rw [if_neg h, le_max_iff]
      constructor
      · intro hx
        rcases hx with hx | hx
        · exact Or.inr (Or.inr hx)
        · omega
      · intro hx
        rcases hx with hx | hx | hx
        · exact absurd (Or.inl hx) h
        · exact absurd (Or.inr hx) h
        · exact Or.inl hx
  · intro h h0
    rw [hval, if_neg h]
    exact max_eq_left h0

/-- C1 witness: the amended theorem instantiated at a premium user with
configured limit 5 (effective limit 100) and at a free user with configured
limit 7 (effective limit 7). -/
theorem c1_effectiveLimit_amended_witness :
    getMonthlyLimit premiumSmallUser = 100 ∧ getMonthlyLimit plainUser7 = 7 := by
  constructor
  · have h := (c1_effectiveLimit_amended premiumSmallUser 5 rfl).1
    simpa using h
  · exact (c1_effectiveLimit_amended plainUser7 7 rfl).2.2.2 (by decide) (by decide)

/-- C10: for a user whose `monthlyLimit` is not a number, the effective limit
is computed from the default base limit 5: it is 100 for premium/admin users
and 5 otherwise. -/
theorem c10_default_base_limit (u : UserRec) (hm : u.monthlyLimit = none) :
    getMonthlyLimit u = if u.plan = "premium" ∨ u.role = "admin" then 100 else 5 := by
  by_cases hp : u.plan = "premium" <;> by_cases hr : u.role = "admin" <;>
    simp [getMonthlyLimit, hm, hp, hr]

/-- C10 witness: the theorem instantiated at a free user (limit 5) and at an
admin user (limit 100), both with a missing `monthlyLimit`. -/
theorem c10_default_base_limit_witness :
    getMonthlyLimit freeNoLimitUser = 5 ∧ getMonthlyLimit adminNoLimitUser = 100 := by
  constructor
  · have h := c10_default_base_limit freeNoLimitUser rfl
    simpa using h
  · have h := c10_default_base_limit adminNoLimitUser rfl
    simpa using h

/-- C6: on every upload attempt by an existing user the monthly-reset step
runs before the quota evaluation (the pipeline continues on the reset user);
when at least 30 days (in milliseconds) have elapsed since `lastReset` it sets
`documentsUsed` to 0 and `lastReset` to now, and when fewer than 30 days have
elapsed it leaves the user record unchanged. -/
theorem c6_monthly_reset (now : Int) (u : UserRec) :
    (30 * 86400000 ≤ now - u.lastReset →
        (resetMonthlyUsageIfNeeded now u).documentsUsed = 0
          ∧ (resetMonthlyUsageIfNeeded now u).lastReset = now)
      ∧ (now - u.lastReset < 30 * 86400000 → resetMonthlyUsageIfNeeded now u = u)
      ∧ (∀ (language : String) (file : FileInfo) (docs : List DocumentRec)
            (env : UploadEnv),
          processUpload now language (some file) (some u) docs env
            = uploadAfterReset language file (resetMonthlyUsageIfNeeded now u) docs env) := by
  refine ⟨?_, ?_, ?_⟩
  · intro h
    unfold resetMonthlyUsageIfNeeded
    rw [if_neg (by omega)]
    exact ⟨rfl, rfl⟩
  · intro h
    unfold resetMonthlyUsageIfNeeded
    rw [if_pos h]
  · intro language file docs env
    rfl

/-- C6 witness: the theorem instantiated at a user last reset at time 0, with
now exactly 30 days (reset fires) and now at 1 second (no-op). -/
theorem c6_monthly_reset_witness :
    (resetMonthlyUsageIfNeeded 2592000000 staleUser).documentsUsed = 0
      ∧ resetMonthlyUsageIfNeeded 1000 staleUser = staleUser := by
  constructor
  · exact ((c6_monthly_reset 2592000000 staleUser).1 (by decide)).1
  · exact (c6_monthly_reset 1000 staleUser).2.1 (by decide)

/-- C2: an upload by an existing user whose `documentsUsed` after the
monthly-reset step is at least the effective limit is answered with 403, the
document table is unchanged (no Document created), the user row stays exactly
the post-reset row (so `documentsUsed` and `storageUsed` are untouched by the
request, the latter keeping its original value), and the temporary file is
deleted. -/
theorem c2_quota_exceeded_rejected (now : Int) (language : String)
    (file : FileInfo) (u : UserRec) (docs : List DocumentRec) (env : UploadEnv)
    (s : Int) (hs : u.storageUsed = some s)
    (hq : getMonthlyLimit (resetMonthlyUsageIfNeeded now u)
            ≤ (resetMonthlyUsageIfNeeded now u).documentsUsed) :
    processUpload now language (some file) (some u) docs env
        = { status := 403, user := some (resetMonthlyUsageIfNeeded now u),
            docs := docs, tempDeleted := true }
      ∧ (resetMonthlyUsageIfNeeded now u).storageUsed = u.storageUsed := by
  have hst : (resetMonthlyUsageIfNeeded now u).storageUsed = some s :=
    (reset_storageUsed now u).trans hs
  have hinit : initStorage (resetMonthlyUsageIfNeeded now u)
      = resetMonthlyUsageIfNeeded now u := initStorage_eq_self hst
  refine ⟨?_, reset_storageUsed now u⟩
  show uploadAfterReset language file (resetMonthlyUsageIfNeeded now u) docs env = _
  unfold uploadAfterReset
  rw [hinit, if_pos hq]

/-- C2 witness: Scenario A — a free user with `documentsUsed = 5` and
`monthlyLimit = 5` gets 403, no document, unchanged counters, temp file
deleted. -/
theorem c2_quota_exceeded_rejected_witness :
    processUpload 1000 "english" (some sampleFile) (some scenarioAUser) []
        trivialEnv
        = { status := 403, user := some (resetMonthlyUsageIfNeeded 1000 scenarioAUser),
            docs := [], tempDeleted := true }
      ∧ (resetMonthlyUsageIfNeeded 1000 scenarioAUser).storageUsed
          = scenarioAUser.storageUsed :=
  c2_quota_exceeded_rejected 1000 "english" sampleFile scenarioAUser []
    trivialEnv 100 rfl (by decide)

/-- C8: an upload that clears the quota check but whose extracted text is
shorter than 50 characters (in particular empty) is answered with the
insufficient-content client error 400, the document table is unchanged and
the temporary file is deleted. -/
theorem c8_insufficient_text_rejected (now : Int) (language : String)
    (file : FileInfo) (u : UserRec) (docs : List DocumentRec) (env : UploadEnv)
    (s : Int) (text : List Char)
    (hs : u.storageUsed = some s)
    (hq : (resetMonthlyUsageIfNeeded now u).documentsUsed
            < getMonthlyLimit (resetMonthlyUsageIfNeeded now u))
    (hext : env.extractResult = .ok text)
    (hshort : text.length < 50) :
    processUpload now language (some file) (some u) docs env
        = { status := 400, user := some (resetMonthlyUsageIfNeeded now u),
            docs := docs, tempDeleted := true } := by
  have hst : (resetMonthlyUsageIfNeeded now u).storageUsed = some s :=
    (reset_storageUsed now u).trans hs
  have hinit : initStorage (resetMonthlyUsageIfNeeded now u)
      = resetMonthlyUsageIfNeeded now u := initStorage_eq_self hst
  have hguard : text = [] ∨ (jsTrim text).length < 50 :=
    Or.inr (lt_of_le_of_lt (jsTrim_length_le text) hshort)
  show uploadAfterReset language file (resetMonthlyUsageIfNeeded now u) docs env = _
  unfold uploadAfterReset
  rw [hinit, if_neg (not_le.mpr hq), hext]
  simp only []
  rw [if_pos hguard]

/-- C8 witness: Scenario C — an upload whose extracted text has 30 characters
is rejected with 400, no document, temp file deleted. -/
theorem c8_insufficient_text_rejected_witness :
    processUpload 1000 "english" (some sampleFile) (some plainUser7) []
        shortTextEnv
        = { status := 400, user := some (resetMonthlyUsageIfNeeded 1000 plainUser7),
            docs := [], tempDeleted := true } :=
  c8_insufficient_text_rejected 1000 "english" sampleFile plainUser7 []
    shortTextEnv 0 text30 rfl (by decide) rfl (by decide)

/-- C7: when the Document-record creation step fails, the request is answered
with the server error 500, the document table is unchanged, the temporary
file is deleted, and the counters are untouched by the request: the user row
is exactly the post-reset row, `storageUsed` keeps its original value, and
when no monthly reset was due the row is exactly the original one — the
accounting update runs only after a successful persistence. -/
theorem c7_persistence_failure_no_accounting (now : Int) (language : String)
    (file : FileInfo) (u : UserRec) (docs : List DocumentRec) (env : UploadEnv)
    (s : Int) (text : List Char) (sm : StudyMaterials) (e : String)
    (hs : u.storageUsed = some s)
    (hq : (resetMonthlyUsageIfNeeded now u).documentsUsed
            < getMonthlyLimit (resetMonthlyUsageIfNeeded now u))
    (hext : env.extractResult = .ok text)
    (hlen : 50 ≤ (jsTrim text).length)
    (hgen : env.genResult = .ok sm)
    (hcreate : env.createdDocId = .error e) :
    processUpload now language (some file) (some u) docs env
        = { status := 500, user := some (resetMonthlyUsageIfNeeded now u),
            docs := docs, tempDeleted := true }
      ∧ (resetMonthlyUsageIfNeeded now u).storageUsed = u.storageUsed
      ∧ (now - u.lastReset < 30 * 86400000 →
          resetMonthlyUsageIfNeeded now u = u) := by
  have hst : (resetMonthlyUsageIfNeeded now u).storageUsed = some s :=
    (reset_storageUsed now u).trans hs
  have hinit : initStorage (resetMonthlyUsageIfNeeded now u)
      = resetMonthlyUsageIfNeeded now u := initStorage_eq_self hst
  have hguard : ¬(text = [] ∨ (jsTrim text).length < 50) := by
    rintro (rfl | hlt)
    · simp [jsTrim] at hlen
    · omega
  refine ⟨?_, reset_storageUsed now u, ?_⟩
  · show uploadAfterReset language file (resetMonthlyUsageIfNeeded now u) docs env = _
    unfold uploadAfterReset
    rw [hinit, if_neg (not_le.mpr hq), hext]
    simp only []
    rw [if_neg hguard, hgen]
    simp only []
    rw [hcreate]
  · intro h
    unfold resetMonthlyUsageIfNeeded
    rw [if_pos h]

/-- C7 witness: the theorem instantiated at a user with quota headroom, a
50-character extraction, successful generation and a failing store write. -/
theorem c7_persistence_failure_no_accounting_witness :
    processUpload 1000 "english" (some sampleFile) (some headroomUser) []
        persistFailEnv
        = { status := 500, user := some (resetMonthlyUsageIfNeeded 1000 headroomUser),
            docs := [], tempDeleted := true }
      ∧ (resetMonthlyUsageIfNeeded 1000 headroomUser).storageUsed
          = headroomUser.storageUsed
      ∧ (1000 - headroomUser.lastReset < 30 * 86400000 →
          resetMonthlyUsageIfNeeded 1000 headroomUser = headroomUser) :=
  c7_persistence_failure_no_accounting 1000 "english" sampleFile headroomUser []
    persistFailEnv 2048 text50 sampleMaterials "write failed" rfl (by decide)
    rfl (by decide) rfl rfl

/-- C3: for a user with non-negative stored bytes `s`, a successful upload of
a file of size S increments `storageUsed` to `s + S`, and deleting the
created document through the owner's deletion route returns `storageUsed` to
its pre-upload value `s`; moreover every deletion of an owned document sets
the owner's `storageUsed` to its value minus the document's recorded size
floored at zero, so the resulting counter is never negative. -/
theorem c3_storage_roundtrip (now : Int) (language : String) (file : FileInfo)
    (u : UserRec) (docs : List DocumentRec) (env : UploadEnv) (s : Int)
    (text : List Char) (sm : StudyMaterials) (docId : String)
    (hs : u.storageUsed = some s) (hs0 : 0 ≤ s)
    (hq : (resetMonthlyUsageIfNeeded now u).documentsUsed
            < getMonthlyLimit (resetMonthlyUsageIfNeeded now u))
    (hext : env.extractResult = .ok text)
    (hlen : 50 ≤ (jsTrim text).length)
    (hgen : env.genResult = .ok sm)
    (hcreate : env.createdDocId = .ok docId)
    (hacc : env.accountingResult = .ok ())
    (hfresh : ∀ d ∈ docs, d.id ≠ docId) :
    (∃ u1 newDoc,
      processUpload now language (some file) (some u) docs env
          = { status := 200, user := some u1, docs := docs ++ [newDoc],
              tempDeleted := true }
        ∧ u1.storageUsed = some (s + file.size)
        ∧ newDoc.fileSize = file.size
        ∧ deleteDocumentRoute { id := u.id, role := u.role } docId u1
              (docs ++ [newDoc])
            = { status := 200, owner := { u1 with storageUsed := some s },
                docs := docs }
        ∧ some s = u.storageUsed)
      ∧ (∀ (owner : UserRec) (docsD : List DocumentRec) (sess : SessionUser)
            (dId : String) (d : DocumentRec),
          docsD.find? (fun x => x.id == dId) = some d →
          d.userId = owner.id → sess.id = d.userId →
          (deleteDocumentRoute sess dId owner docsD).owner.storageUsed
              = some (if 0 < owner.storageUsed.getD 0 - d.fileSize then owner.storageUsed.getD 0 - d.fileSize else 0)
            ∧ (0:Int) ≤ (if 0 < owner.storageUsed.getD 0 - d.fileSize then owner.storageUsed.getD 0 - d.fileSize else 0)) := by
  constructor
  · have hst : (resetMonthlyUsageIfNeeded now u).storageUsed = some s :=
      (reset_storageUsed now u).trans hs
    have hrun := uploadAfterReset_success language file
      (resetMonthlyUsageIfNeeded now u) docs env s text sm docId hst hq hext
      hlen hgen hcreate hacc
    refine ⟨_, _, hrun, rfl, rfl, ?_, hs.symm⟩
    have hdel := delete_new_doc
      { resetMonthlyUsageIfNeeded now u with
        documentsUsed := (resetMonthlyUsageIfNeeded now u).documentsUsed + 1,
        storageUsed := some (s + file.size) }
      { id := docId, userId := (resetMonthlyUsageIfNeeded now u).id, filename := file.filename, originalName := file.originalName, fileType := file.mimetype, fileSize := file.size, language := if language == "arabic" then "arabic" else "english", summary := sm.summary, flashcards := sm.flashcards, examQuestions := sm.examQuestions }
      docs u.id u.role docId hfresh rfl rfl (reset_id now u).symm
    rw [hdel]
    simp only [Option.getD_some, add_sub_cancel_right]
    split_ifs with h
    · rfl
    · have hz : s = 0 := by omega
      rw [hz]
  · intro owner docsD sess dId d hfind hdo hsid
    rw [deleteDocumentRoute_owned sess dId owner docsD d hfind hdo hsid]
    refine ⟨rfl, ?_⟩
    split_ifs with h <;> omega

/-- C3 witness: the round trip at a user with 2048 stored bytes uploading a
1234-byte file, and Scenario E — deleting a 1000000-byte document of a user
with 500000 stored bytes yields 0, not a negative counter. -/
theorem c3_storage_roundtrip_witness :
    (∃ u1 newDoc,
      processUpload 1000 "english" (some sampleFile) (some headroomUser) []
          happyEnv
          = { status := 200, user := some u1, docs := [] ++ [newDoc],
              tempDeleted := true }
        ∧ u1.storageUsed = some (2048 + sampleFile.size)
        ∧ newDoc.fileSize = sampleFile.size
        ∧ deleteDocumentRoute { id := headroomUser.id, role := headroomUser.role }
              "d-new" u1 ([] ++ [newDoc])
            = { status := 200, owner := { u1 with storageUsed := some 2048 },
                docs := [] }
        ∧ some 2048 = headroomUser.storageUsed)
      ∧ (deleteDocumentRoute { id := "u-500k", role := "user" } "d-big"
            owner500k [bigDoc]).owner.storageUsed = some 0 := by
  have h := c3_storage_roundtrip 1000 "english" sampleFile headroomUser []
    happyEnv 2048 text50 sampleMaterials "d-new" rfl (by decide) (by decide)
    rfl (by decide) rfl rfl rfl (by simp)
  refine ⟨h.1, ?_⟩
  have h2 := (h.2 owner500k [bigDoc] { id := "u-500k", role := "user" } "d-big"
    bigDoc rfl rfl rfl).1
  rw [h2]
  decide

/-- C4: `storageUsed >= 0` is an invariant — the upload pipeline (including
its accounting increment, for a non-negative file size), the owner deletion
route, the admin deletion route, and the storage backfill all map user rows
with non-negative storage to user rows with non-negative storage. -/
theorem c4_storage_nonneg_invariant :
    (∀ (now : Int) (language : String) (file : FileInfo) (u : UserRec)
        (docs : List DocumentRec) (env : UploadEnv) (u1 : UserRec),
      0 ≤ file.size → storageNonneg u →
      (processUpload now language (some file) (some u) docs env).user = some u1 →
      storageNonneg u1)
  ∧ (∀ (sess : SessionUser) (docId : String) (owner : UserRec)
        (docs : List DocumentRec),
      storageNonneg owner →
      storageNonneg (deleteDocumentRoute sess docId owner docs).owner)
  ∧ (∀ (pid documentId : String) (owner : UserRec) (docs : List DocumentRec),
      storageNonneg owner →
      storageNonneg (deleteUserFileRoute pid documentId owner docs).owner)
  ∧ (∀ (users : List UserRec) (docs : List DocumentRec),
      (∀ d ∈ docs, 0 ≤ d.fileSize) →
      ∀ u ∈ backfillStorage users docs, storageNonneg u) := by
  refine ⟨?_, ?_, ?_, ?_⟩
  · intro now language file u docs env u1 hsize hnn hu1
    have hnnr : storageNonneg (resetMonthlyUsageIfNeeded now u) := by
      intro t ht
      rw [reset_storageUsed] at ht
      exact hnn t ht
    have hnni : storageNonneg (initStorage (resetMonthlyUsageIfNeeded now u)) := by
      intro t ht
      unfold initStorage at ht
      split_ifs at ht with h0
      · simp at ht
        omega
      · exact hnnr t ht
    have hred : (processUpload now language (some file) (some u) docs env)
        = uploadAfterReset language file (resetMonthlyUsageIfNeeded now u) docs env := rfl
    rw [hred] at hu1
    rcases uploadAfterReset_user_cases language file
      (resetMonthlyUsageIfNeeded now u) docs env with hc | hc
    · rw [hc] at hu1
      rw [← Option.some.inj hu1]
      exact hnni
    · rw [hc] at hu1
      rw [← Option.some.inj hu1]
      intro t ht
      simp only [] at ht
      have hg : 0 ≤ (initStorage (resetMonthlyUsageIfNeeded now u)).storageUsed.getD 0 := by
        cases hS : (initStorage (resetMonthlyUsageIfNeeded now u)).storageUsed with
        | none => simp
        | some v => simpa using hnni v hS
      have ht2 := Option.some.inj ht
      omega
  · intro sess docId owner docs hnn
    unfold deleteDocumentRoute
    cases hF : docs.find? (fun d => d.id == docId) with
    | none => exact hnn
    | some d =>
      simp only []
      split_ifs with h1 h2 h3
      · exact hnn
      · intro t ht
        have ht2 := Option.some.inj ht
        omega
      · intro t ht
        have ht2 := Option.some.inj ht
        omega
      · exact hnn
  · intro pid documentId owner docs hnn
    unfold deleteUserFileRoute
    cases hF : docs.find? (fun d => d.id == documentId) with
    | none => exact hnn
    | some d =>
      simp only []
      split_ifs with h1 h2 h3
      · exact hnn
      · intro t ht
        have ht2 := Option.some.inj ht
        omega
      · intro t ht
        have ht2 := Option.some.inj ht
        omega
      · exact hnn
  · intro users docs hd u hu
    rw [backfillStorage_eq] at hu
    rcases List.mem_map.mp hu with ⟨a, ha, rfl⟩
    intro t ht
    have ht2 := Option.some.inj ht
    have := userDocsTotal_nonneg docs a.id hd
    omega

/-- C4 witness: the invariant at a successful concrete upload, at the
concrete Scenario E admin-style deletion, and at a concrete backfill. -/
theorem c4_storage_nonneg_invariant_witness :
    storageNonneg { id := "u-up", plan := "free", role := "user", monthlyLimit := some 5, documentsUsed := 2, storageUsed := some 3282, lastReset := 0 }
      ∧ storageNonneg (deleteDocumentRoute { id := "u-500k", role := "user" }
          "d-big" owner500k [bigDoc]).owner
      ∧ storageNonneg (deleteUserFileRoute "u-500k" "d-big" owner500k [bigDoc]).owner
      ∧ ∀ u ∈ backfillStorage [owner500k] [bigDoc], storageNonneg u := by
  refine ⟨?_, ?_, ?_, ?_⟩
  · exact c4_storage_nonneg_invariant.1 1000 "english" sampleFile headroomUser
      [] happyEnv _ (by decide)
      (fun t ht => by simp [headroomUser] at ht; omega) (by decide)
  · exact c4_storage_nonneg_invariant.2.1 { id := "u-500k", role := "user" }
      "d-big" owner500k [bigDoc]
      (fun t ht => by simp [owner500k] at ht; omega)
  · exact c4_storage_nonneg_invariant.2.2.1 "u-500k" "d-big" owner500k [bigDoc]
      (fun t ht => by simp [owner500k] at ht; omega)
  · exact c4_storage_nonneg_invariant.2.2.2 [owner500k] [bigDoc]
      (by intro d hd
          have hdd := List.mem_singleton.mp hd
          subst hdd
          decide)

/-- C5: the storage-repair operation recomputes every user's `storageUsed` as
the sum of `fileSize` over that user's current documents; it is idempotent
for a fixed document set; and a user with no documents ends with
`storageUsed = 0`. -/
theorem c5_backfill_recompute (users : List UserRec) (docs : List DocumentRec) :
    backfillStorage users docs
        = users.map (fun u => { u with storageUsed := some (userDocsTotal docs u.id) })
      ∧ backfillStorage (backfillStorage users docs) docs
          = backfillStorage users docs
      ∧ (∀ u ∈ backfillStorage users docs,
          (∀ d ∈ docs, d.userId ≠ u.id) → u.storageUsed = some 0) := by
  refine ⟨backfillStorage_eq users docs, ?_, ?_⟩
  · rw [backfillStorage_eq users docs, backfillStorage_eq, List.map_map]
    congr 1
  · intro u hu hnone
    rw [backfillStorage_eq] at hu
    rcases List.mem_map.mp hu with ⟨a, ha, rfl⟩
    have h0 : userDocsTotal docs a.id = 0 := by
      apply userDocsTotal_eq_zero
      intro d hd
      simpa using hnone d hd
    simp [h0]

/-- C5 witness: idempotence at a concrete two-user database, and zero storage
for a concrete user owning no documents. -/
theorem c5_backfill_recompute_witness :
    backfillStorage (backfillStorage [owner500k, plainUser7] [bigDoc]) [bigDoc]
        = backfillStorage [owner500k, plainUser7] [bigDoc]
      ∧ ({ plainUser7 with storageUsed := some 0 } : UserRec).storageUsed = some 0 := by
  constructor
  · exact (c5_backfill_recompute [owner500k, plainUser7] [bigDoc]).2.1
  · refine (c5_backfill_recompute [plainUser7] [bigDoc]).2.2
      { plainUser7 with storageUsed := some 0 } (by decide) ?_
    intro d hd
    have hdd := List.mem_singleton.mp hd
    subst hdd
    decide

/-- C9 counterexample: `innerJsonText` is valid JSON, yet wrapping it in a
plain (unlabelled) code fence makes the generator fail — the replace pattern
only strips a leading fence when it is the exact marker "```json", so the
claimed "strips any enclosing code-fence markup ... parses successfully"
is false for this input. -/
theorem c9_code_fence_counterexample :
    genResultOk (jsonParseChars innerJsonText.data) = true
      ∧ genResultOk (generateStudyMaterials (.ok plainFencedText)) = false :=
  ⟨rfl, rfl⟩

/-- C9 (amended): a call failure propagates unchanged as the generation
failure, with no retry and no partial result; on success the generator
performs exactly one strict JSON parse of the trimmed, fence-stripped text
(where only a leading "```json" marker and a trailing "```" are stripped);
in particular a valid JSON payload wrapped in a "```json" code fence parses
successfully. -/
theorem c9_generator_amended (err : String) (raw : String) :
    generateStudyMaterials (.error err) = .error err
      ∧ generateStudyMaterials (.ok raw)
          = jsonParseChars (stripCodeFence (jsTrim raw.data))
      ∧ generateStudyMaterials (.ok fencedJsonText) = .ok innerJsonValue :=
  ⟨rfl, rfl, rfl⟩

end StudyBackend
